import Mathlib

/-!
Shallow embedding of the go-estimate repository core:
the linear state-space models (sim.BaseModel and model.Fall), the
InitCond value container, and the rnd sampling routines WithCovN and
RouletteDrawN. Matrices are dense rational matrices; gonum panics
(dimension mismatches in Mul and Add, nil dereferences, negative make
lengths) are modelled by an explicit panic outcome, while errors the Go
code returns as values are modelled by an err outcome.
-/

/-- Outcome of a Go call returning (value, error): ok is a nil error with a
value, err is a returned error value, panic is a runtime panic. -/
inductive GoResult (α : Type) where
  | ok : α → GoResult α
  | err : String → GoResult α
  | panic : GoResult α
deriving DecidableEq

/-- A dense matrix in the style of gonum mat.Dense: a tracked row count,
a tracked column count, and the entries as a list of rows. -/
structure Mat where
  rows : Nat
  cols : Nat
  data : List (List ℚ)
deriving DecidableEq

/-- Well-formedness that every gonum mat.Dense enjoys by construction:
the stored data has exactly rows rows, each of length cols. -/
def Mat.Wf (m : Mat) : Prop :=
  m.data.length = m.rows ∧ ∀ r ∈ m.data, r.length = m.cols

instance (m : Mat) : Decidable m.Wf := by
  unfold Mat.Wf; infer_instance

/-- Dot product of two rational lists, the inner loop of gonum Mul. -/
def dotProd (a b : List ℚ) : ℚ :=
  (List.zipWith (fun x y => x * y) a b).sum

/-- The raw matrix-vector product A times x, one dot product per row. -/
def matVecProd (A : Mat) (x : List ℚ) : List ℚ :=
  A.data.map (fun row => dotProd row x)

/-- gonum out.Mul(A, x) with x a column vector: panics (none) when the
column count of A differs from the length of x, otherwise produces the
product column. -/
def matMulVec (A : Mat) (x : List ℚ) : Option (List ℚ) :=
  if A.cols = x.length then some (matVecProd A x) else none

/-- gonum out.Add(a, b) on column vectors: panics (none) when the lengths
disagree, otherwise adds entrywise. -/
def vecAdd (a b : List ℚ) : Option (List ℚ) :=
  if a.length = b.length then some (List.zipWith (fun x y => x + y) a b) else none

/-- sim.BaseModel: state matrix A, optional control matrix B, output
matrix C, optional output control matrix D. The Go fields are pointers;
the code guards B and D with explicit nil checks but dereferences A and C
unconditionally, so A and C are required here and B and D optional. -/
structure BaseModel where
  A : Mat
  B : Option Mat
  C : Mat
  D : Option Mat
deriving DecidableEq

/-- sim.BaseModel.Dims: reads the column count of A and the row count
of C and returns the pair (in, out). -/
def BaseModel.Dims (b : BaseModel) : Nat × Nat :=
  (b.A.cols, b.C.rows)

/-- sim.NewBaseModel: stores the four matrices as given and returns a nil
error; the Go constructor performs no validation at all. -/
def NewBaseModel (A : Mat) (B : Option Mat) (C : Mat) (D : Option Mat) :
    BaseModel × Option String :=
  (⟨A, B, C, D⟩, none)

/-- The Go condition u != nil && u.Len() != d guarding the input vector. -/
def uLenBad (u : Option (List ℚ)) (d : Nat) : Bool :=
  match u with
  | none => false
  | some uv => uv.length ≠ d

/-- The block: if u != nil && b.B != nil then outU = B u; out = out + outU.
Either multiplication or addition can panic on mismatched dimensions;
the block never returns an error value. -/
def ctlStep (B : Option Mat) (u : Option (List ℚ)) (out : List ℚ) :
    GoResult (List ℚ) :=
  match u, B with
  | some uv, some Bm =>
    match matMulVec Bm uv with
    | none => .panic
    | some outU =>
      match vecAdd out outU with
      | none => .panic
      | some o => .ok o
  | _, _ => .ok out

/-- The block: if q != nil && q.Len() == d then out = out + q. The length
guard uses d; the addition itself compares the accumulated length and can
still panic when the two disagree. Never returns an error value. -/
def noiseStep (q : Option (List ℚ)) (d : Nat) (out : List ℚ) :
    GoResult (List ℚ) :=
  match q with
  | some qv =>
    if qv.length = d then
      match vecAdd out qv with
      | none => .panic
      | some o => .ok o
    else .ok out
  | none => .ok out

/-- sim.BaseModel.Propagate: reads (in, out) from Dims, rejects a present
u whose length differs from the out dimension, rejects x whose length
differs from the in dimension, then computes A x, optionally adds B u,
optionally adds q, and returns column 0. -/
def basePropagate (b : BaseModel) (x : List ℚ) (u q : Option (List ℚ)) :
    GoResult (List ℚ) :=
  if uLenBad u (b.Dims).2 then .err "Invalid input vector"
  else if x.length ≠ (b.Dims).1 then .err "Invalid state vector"
  else
    match matMulVec b.A x with
    | none => .panic
    | some out0 =>
      match ctlStep b.B u out0 with
      | .ok out1 => noiseStep q (b.Dims).1 out1
      | r => r

/-- model.Fall: same four matrices, but the methods dereference all four
fields unconditionally (B in Propagate, D in Dims and Observe), so all
four are required here. -/
structure Fall where
  A : Mat
  B : Mat
  C : Mat
  D : Mat
deriving DecidableEq

/-- model.Fall.Dims: reads the column count of A and the row count of D
(not of C) and returns the pair (in, out). -/
def Fall.Dims (b : Fall) : Nat × Nat :=
  (b.A.cols, b.D.rows)

/-- model.NewFall: stores the four matrices as given and returns a nil
error; no validation. -/
def NewFall (A B C D : Mat) : Fall × Option String :=
  (⟨A, B, C, D⟩, none)

/-- model.Fall.Propagate: calls u.Len() with no nil check, so a nil u is
a nil dereference panic; otherwise checks u against the out dimension and
x against the in dimension, computes A x, unconditionally adds B u, and
optionally adds q. -/
def fallPropagate (b : Fall) (x : List ℚ) (u q : Option (List ℚ)) :
    GoResult (List ℚ) :=
  match u with
  | none => .panic
  | some uv =>
    if uv.length ≠ (b.Dims).2 then .err "Invalid input vector"
    else if x.length ≠ (b.Dims).1 then .err "Invalid state vector"
    else
      match matMulVec b.A x with
      | none => .panic
      | some out0 =>
        match matMulVec b.B uv with
        | none => .panic
        | some outU =>
          match vecAdd out0 outU with
          | none => .panic
          | some out1 => noiseStep q (b.Dims).1 out1

/-- model.Fall.Observe: same shape as Propagate with C and D in place of
A and B, and with the r guard comparing against the out dimension. A nil
u again panics at u.Len(). -/
def fallObserve (b : Fall) (x : List ℚ) (u r : Option (List ℚ)) :
    GoResult (List ℚ) :=
  match u with
  | none => .panic
  | some uv =>
    if uv.length ≠ (b.Dims).2 then .err "Invalid input vector"
    else if x.length ≠ (b.Dims).1 then .err "Invalid state vector"
    else
      match matMulVec b.C x with
      | none => .panic
      | some out0 =>
        match matMulVec b.D uv with
        | none => .panic
        | some outU =>
          match vecAdd out0 outU with
          | some out1 => noiseStep r (b.Dims).2 out1
          | none => .panic

/-- Outcome of rnd.WithCovN up to the numerical sampling computation:
the two error returns are modelled exactly; a run that passes both checks
proceeds to the SVD-based sampling, whose floating-point content is
abstracted to the shape it would produce. -/
inductive CovNOutcome where
  | invalidNumSamples : CovNOutcome
  | svdFailed : CovNOutcome
  | proceeds : Nat → Nat → CovNOutcome
deriving DecidableEq

/-- rnd.WithCovN control flow: returns the invalid-sample-count error when
n <= 1, then factorizes the covariance by SVD; the success of the
numerical factorization is abstracted as the svdOk flag; on failure the
factorization error is returned, otherwise the call proceeds to draw a
rows-by-n sample matrix. -/
def WithCovN (cov : Mat) (n : Int) (svdOk : Bool) : CovNOutcome :=
  if n ≤ 1 then .invalidNumSamples
  else if svdOk = false then .svdFailed
  else .proceeds cov.rows n.toNat

/-- floats.CumSum: the running prefix sums of a list. -/
def cumSum : List ℚ → List ℚ
  | [] => []
  | a :: rest => a :: (cumSum rest).map (fun x => a + x)

/-- The loop of sort.Search on the half-open interval from i to j, with
explicit fuel; each iteration halves the interval, so fuel bounding the
interval length suffices and the fuel-exhausted branch is unreachable. -/
def searchLoop (f : Nat → Bool) : Nat → Nat → Nat → Nat
  | 0, i, _ => i
  | fuel + 1, i, j =>
    if i < j then
      if f ((i + j) / 2) then searchLoop f fuel i ((i + j) / 2)
      else searchLoop f fuel ((i + j) / 2 + 1) j
    else i

/-- sort.Search(n, f): the smallest index in 0..n-1 at which f holds,
or n when there is none, located by binary search exactly as in the Go
standard library. -/
def sortSearch (n : Nat) (f : Nat → Bool) : Nat :=
  searchLoop f n 0 n

/-- rnd.RouletteDrawN: rejects a nil or empty weight vector with an error,
builds the cumulative sum cdf, and for each of n draws multiplies a
uniform [0,1) variate by the last cdf entry and binary-searches for the
first cdf entry strictly above it. The uniform source is the rand
argument, one variate per draw index. A negative n panics in Go at
make with a negative length. -/
def RouletteDrawN (p : List ℚ) (n : Int) (rand : Nat → ℚ) :
    GoResult (List Nat) :=
  if p = [] then .err "Invalid probability weights"
  else if n < 0 then .panic
  else .ok ((List.range n.toNat).map (fun i =>
    sortSearch (cumSum p).length (fun j =>
      decide (rand i * (cumSum p).getD ((cumSum p).length - 1) 0 <
        (cumSum p).getD j 0))))

/-- An explicit heap of vector cells and matrix cells with a bump
allocator, to state the aliasing facts about InitCond: vecs and mats give
the contents at each reference, next is the first unallocated reference. -/
structure GoHeap where
  vecs : Nat → List ℚ
  mats : Nat → List (List ℚ)
  next : Nat

/-- Overwrite the vector cell at reference r, the effect of mutating a
returned mat.VecDense in place. -/
def writeVec (h : GoHeap) (r : Nat) (v : List ℚ) : GoHeap :=
  { h with vecs := fun i => if i = r then v else h.vecs i }

/-- Overwrite the matrix cell at reference r, the effect of mutating a
returned mat.SymDense in place. -/
def writeMat (h : GoHeap) (r : Nat) (m : List (List ℚ)) : GoHeap :=
  { h with mats := fun i => if i = r then m else h.mats i }

/-- InitCond as it sits on the heap: a reference to its state vector and
a reference to its covariance matrix. -/
structure InitCond where
  state : Nat
  cov : Nat

/-- Both references of an InitCond point at allocated cells. -/
def InitCond.Valid (ic : InitCond) (h : GoHeap) : Prop :=
  ic.state < h.next ∧ ic.cov < h.next

instance (ic : InitCond) (h : GoHeap) : Decidable (ic.Valid h) := by
  unfold InitCond.Valid; infer_instance

/-- NewInitCond: clones the supplied state vector and covariance matrix
into two freshly allocated cells and returns the references. -/
def NewInitCond (h : GoHeap) (s : List ℚ) (c : List (List ℚ)) :
    GoHeap × InitCond :=
  ({ vecs := fun i => if i = h.next then s else h.vecs i,
     mats := fun i => if i = h.next + 1 then c else h.mats i,
     next := h.next + 2 },
   ⟨h.next, h.next + 1⟩)

/-- InitCond.State: allocates a fresh vector with mat.NewVecDense, copies
the internal state vector into it, and returns the fresh reference. -/
def InitCond.State (ic : InitCond) (h : GoHeap) : GoHeap × Nat :=
  ({ h with
      vecs := fun i => if i = h.next then h.vecs ic.state else h.vecs i,
      next := h.next + 1 },
   h.next)

/-- InitCond.Cov: allocates a fresh symmetric matrix with mat.NewSymDense,
copies the internal covariance into it, and returns the fresh reference. -/
def InitCond.Cov (ic : InitCond) (h : GoHeap) : GoHeap × Nat :=
  ({ h with
      mats := fun i => if i = h.next then h.mats ic.cov else h.mats i,
      next := h.next + 1 },
   h.next)

/-- Copy independence of two successive State calls: both returned
references differ from the internal one and from each other, the first
copy holds the internal contents, and writing v through the second
reference changes neither the first copy nor the internal cell. -/
def StateCopyIndependent (h : GoHeap) (ic : InitCond) (v : List ℚ) : Prop :=
  (ic.State h).2 ≠ ic.state ∧
  (ic.State (ic.State h).1).2 ≠ ic.state ∧
  (ic.State h).2 ≠ (ic.State (ic.State h).1).2 ∧
  ((ic.State h).1).vecs (ic.State h).2 = h.vecs ic.state ∧
  (writeVec (ic.State (ic.State h).1).1 (ic.State (ic.State h).1).2 v).vecs
      (ic.State h).2
    = ((ic.State h).1).vecs (ic.State h).2 ∧
  (writeVec (ic.State (ic.State h).1).1 (ic.State (ic.State h).1).2 v).vecs
      ic.state
    = h.vecs ic.state

/-- Copy independence of two successive Cov calls, mirror of the State
version on the matrix cells. -/
def CovCopyIndependent (h : GoHeap) (ic : InitCond) (m : List (List ℚ)) : Prop :=
  (ic.Cov h).2 ≠ ic.cov ∧
  (ic.Cov (ic.Cov h).1).2 ≠ ic.cov ∧
  (ic.Cov h).2 ≠ (ic.Cov (ic.Cov h).1).2 ∧
  ((ic.Cov h).1).mats (ic.Cov h).2 = h.mats ic.cov ∧
  (writeMat (ic.Cov (ic.Cov h).1).1 (ic.Cov (ic.Cov h).1).2 m).mats
      (ic.Cov h).2
    = ((ic.Cov h).1).mats (ic.Cov h).2 ∧
  (writeMat (ic.Cov (ic.Cov h).1).1 (ic.Cov (ic.Cov h).1).2 m).mats
      ic.cov
    = h.mats ic.cov

/-- A square 2x2 state matrix used for concrete instances. -/
def A2 : Mat := ⟨2, 2, [[1, 2], [3, 4]]⟩

/-- A 2x1 control matrix (n = 2 rows, m = 1 column). -/
def B21 : Mat := ⟨2, 1, [[0], [1]]⟩

/-- A 1x2 output matrix (p = 1 row, n = 2 columns). -/
def C12 : Mat := ⟨1, 2, [[1, 0]]⟩

/-- A 1x1 output control matrix (p = 1 row, m = 1 column). -/
def D11 : Mat := ⟨1, 1, [[0]]⟩

/-- A BaseModel with no control channel, satisfying the dimensional
invariant of the spec. -/
def MW : BaseModel := ⟨A2, none, C12, none⟩

/-- A Fall model satisfying the dimensional invariant of the spec. -/
def FW : Fall := ⟨A2, B21, C12, D11⟩

/-- The 1x1 control matrix of the counterexample model. -/
def CM1B : Mat := ⟨1, 1, [[1]]⟩

/-- A BaseModel satisfying the dimensional invariant, with control
dimension m = 1 and output dimension p = 2, so m and p differ. -/
def CM1 : BaseModel := ⟨⟨1, 1, [[1]]⟩, some CM1B, ⟨2, 1, [[1], [0]]⟩, none⟩

/-- A non-square matrix, violating the invariant that A is square. -/
def badA : Mat := ⟨1, 2, [[1, 2]]⟩

/-- An output matrix whose column count differs from the side of badA. -/
def badC : Mat := ⟨1, 5, [[1, 2, 3, 4, 5]]⟩

/-- A concrete heap with two allocated cells. -/
def H0 : GoHeap := { vecs := fun _ => [3], mats := fun _ => [[4]], next := 2 }

/-- A concrete InitCond valid in H0. -/
def IC0 : InitCond := ⟨0, 1⟩

/-! ## Helper lemmas -/

lemma uLenBad_iff (u : Option (List ℚ)) (d : Nat) :
    uLenBad u d = true ↔ ∃ uv, u = some uv ∧ uv.length ≠ d := by
  cases u <;> simp [uLenBad]

lemma ctlStep_none (B : Option Mat) (out : List ℚ) :
    ctlStep B none out = GoResult.ok out := by
  cases B <;> rfl

lemma ctlStep_ne_err (B : Option Mat) (u : Option (List ℚ)) (out : List ℚ)
    (s : String) : ctlStep B u out ≠ GoResult.err s := by
  cases u with
  | none => rw [ctlStep_none]; simp
  | some uv =>
    cases B with
    | none => simp [ctlStep]
    | some Bm =>
      simp only [ctlStep]
      cases hm : matMulVec Bm uv with
      | none => simp
      | some outU =>
        cases ha : vecAdd out outU <;> simp [ha]

lemma noiseStep_ne_err (q : Option (List ℚ)) (d : Nat) (out : List ℚ)
    (s : String) : noiseStep q d out ≠ GoResult.err s := by
  cases q with
  | none => simp [noiseStep]
  | some qv =>
    simp only [noiseStep]
    by_cases h : qv.length = d
    · rw [if_pos h]
      cases ha : vecAdd out qv <;> simp [ha]
    · rw [if_neg h]; simp

lemma basePropagate_checks_pass_ne_err (b : BaseModel) (x : List ℚ)
    (u q : Option (List ℚ)) (hu : uLenBad u (b.Dims).2 = false)
    (hx : x.length = (b.Dims).1) (s : String) :
    basePropagate b x u q ≠ GoResult.err s := by
  unfold basePropagate
  rw [hu]
  simp only [Bool.false_eq_true, if_false, hx, ne_eq, not_true_eq_false,
    if_false]
  cases hm : matMulVec b.A x with
  | none => simp
  | some out0 =>
    cases hc : ctlStep b.B u out0 with
    | ok out1 => simpa [hc] using noiseStep_ne_err q (b.Dims).1 out1 s
    | err s2 => exact absurd hc (ctlStep_ne_err b.B u out0 s2)
    | panic => simp [hc]

lemma fallPropagate_checks_pass_ne_err (b : Fall) (x uv : List ℚ)
    (q : Option (List ℚ)) (hu : uv.length = (b.Dims).2)
    (hx : x.length = (b.Dims).1) (s : String) :
    fallPropagate b x (some uv) q ≠ GoResult.err s := by
  unfold fallPropagate
  simp only [hu, hx, ne_eq, not_true_eq_false, if_false]
  cases hm : matMulVec b.A x with
  | none => simp
  | some out0 =>
    cases hb : matMulVec b.B uv with
    | none => simp
    | some outU =>
      cases ha : vecAdd out0 outU with
      | none => simp [ha]
      | some out1 => simpa [ha] using noiseStep_ne_err q (b.Dims).1 out1 s

lemma searchLoop_eq_left (f : Nat → Bool) :
    ∀ (fuel i j : Nat), (∀ k, k < j → f k = true) → searchLoop f fuel i j = i := by
  intro fuel
  induction fuel with
  | zero => intro i j _; rfl
  | succ n ih =>
    intro i j hf
    unfold searchLoop
    by_cases hij : i < j
    · rw [if_pos hij, if_pos (hf _ (by omega))]
      exact ih i ((i + j) / 2) (fun k hk => hf k (by omega))
    · rw [if_neg hij]

/-! ## Claim theorems -/

/-- Claim C1, counterexample: CM1 satisfies the dimensional invariant with
control dimension m = 1 and output dimension p = 2; the state vector has
the correct length and the control vector has exactly length m, yet
Propagate rejects it, because the code compares the control vector length
against the output dimension (the row count of C), not against m. -/
theorem basePropagate_control_check_cex :
    basePropagate CM1 [1] (some [1]) none = GoResult.err "Invalid input vector" ∧
    [(1 : ℚ)].length = CM1.A.cols ∧ [(1 : ℚ)].length = CM1.A.rows ∧
    CM1.B = some CM1B ∧ [(1 : ℚ)].length = CM1B.cols := by decide

/-- Claim C1, amended: Propagate returns an error exactly when a present
control vector u has length different from the output dimension (the row
count of C for BaseModel, of D for Fall) or when, with that check passed,
x has length different from the column count of A; once both checks pass
no error value is ever returned (though the later multiplications can
still panic on mismatched shapes). -/
theorem propagate_err_characterization :
    (∀ (b : BaseModel) (x : List ℚ) (u q : Option (List ℚ)),
      (∃ s, basePropagate b x u q = GoResult.err s) ↔
        ((∃ uv, u = some uv ∧ uv.length ≠ b.C.rows) ∨ x.length ≠ b.A.cols)) ∧
    (∀ (b : Fall) (x uv : List ℚ) (q : Option (List ℚ)),
      (∃ s, fallPropagate b x (some uv) q = GoResult.err s) ↔
        (uv.length ≠ b.D.rows ∨ x.length ≠ b.A.cols)) := by
  constructor
  · intro b x u q
    by_cases hu : uLenBad u (b.Dims).2 = true
    · constructor
      · intro _
        exact Or.inl ((uLenBad_iff u (b.Dims).2).1 hu)
      · intro _
        refine ⟨"Invalid input vector", ?_⟩
        unfold basePropagate
        rw [hu, if_pos rfl]
    · have hu' : uLenBad u (b.Dims).2 = false := by
        revert hu; cases uLenBad u (b.Dims).2 <;> simp
      by_cases hx : x.length = (b.Dims).1
      · constructor
        · intro ⟨s, hs⟩
          exact absurd hs (basePropagate_checks_pass_ne_err b x u q hu' hx s)
        · intro hor
          exfalso
          cases hor with
          | inl h => exact hu ((uLenBad_iff u (b.Dims).2).2 h)
          | inr h => exact h hx
      · constructor
        · intro _
          exact Or.inr hx
        · intro _
          refine ⟨"Invalid state vector", ?_⟩
          unfold basePropagate
          rw [hu']
          simp only [Bool.false_eq_true, if_false, ne_eq, hx, not_false_eq_true,
            if_pos]
  · intro b x uv q
    by_cases hu : uv.length = (b.Dims).2
    · by_cases hx : x.length = (b.Dims).1
      · constructor
        · intro ⟨s, hs⟩
          exact absurd hs (fallPropagate_checks_pass_ne_err b x uv q hu hx s)
        · intro hor
          exfalso
          cases hor with
          | inl h => exact h hu
          | inr h => exact h hx
      · constructor
        · intro _
          exact Or.inr hx
        · intro _
          refine ⟨"Invalid state vector", ?_⟩
          unfold fallPropagate
          simp only [hu, ne_eq, not_true_eq_false, if_false, hx,
            not_false_eq_true, if_pos]
    · constructor
      · intro _
        exact Or.inl hu
      · intro _
        refine ⟨"Invalid input vector", ?_⟩
        simp only [fallPropagate]
        rw [if_pos hu]

/-- Claim C2: WithCovN reports the invalid-sample-count error exactly when
the requested count is at most one; for larger counts the only error it
can report is the factorization error, otherwise it proceeds to sampling. -/
theorem withCovN_invalid_iff (cov : Mat) (n : Int) (svdOk : Bool) :
    (WithCovN cov n svdOk = CovNOutcome.invalidNumSamples ↔ n ≤ 1) ∧
    (2 ≤ n → WithCovN cov n svdOk = CovNOutcome.svdFailed ∨
      WithCovN cov n svdOk = CovNOutcome.proceeds cov.rows n.toNat) := by
  unfold WithCovN
  by_cases h : n ≤ 1
  · rw [if_pos h]
    exact ⟨by simp [h], fun h2 => by omega⟩
  · rw [if_neg h]
    constructor
    · constructor
      · intro hc
        cases svdOk <;> simp_all
      · intro hle
        exact absurd hle h
    · intro _
      cases svdOk <;> simp

theorem withCovN_invalid_iff_witness :
    (WithCovN A2 5 true = CovNOutcome.invalidNumSamples ↔ (5 : Int) ≤ 1) ∧
    (WithCovN A2 5 true = CovNOutcome.svdFailed ∨
      WithCovN A2 5 true = CovNOutcome.proceeds A2.rows (5 : Int).toNat) :=
  ⟨(withCovN_invalid_iff A2 5 true).1, (withCovN_invalid_iff A2 5 true).2 (by decide)⟩

/-- Claim C3: on a well-formed square state matrix and a state vector of
matching length, Propagate with no control and no noise succeeds and
returns exactly the matrix-vector product A x, whose length is the state
dimension reported by Dims. -/
theorem basePropagate_autonomous (b : BaseModel) (x : List ℚ)
    (hwf : b.A.Wf) (hsq : b.A.rows = b.A.cols) (hx : x.length = b.A.cols) :
    basePropagate b x none none = GoResult.ok (matVecProd b.A x) ∧
    (matVecProd b.A x).length = (b.Dims).1 := by
  constructor
  · have hx1 : x.length = (b.Dims).1 := hx
    have hm : matMulVec b.A x = some (matVecProd b.A x) := by
      unfold matMulVec
      rw [if_pos hx.symm]
    unfold basePropagate
    rw [if_neg (by simp [uLenBad]), if_neg (by simp [hx1]), hm]
    cases hB : b.B <;> simp [ctlStep, noiseStep]
  · have hlen : (matVecProd b.A x).length = b.A.data.length := by
      unfold matVecProd
      exact List.length_map _ _
    have hdim : (b.Dims).1 = b.A.cols := rfl
    rw [hlen, hwf.1, hdim, hsq]

theorem basePropagate_autonomous_witness :
    basePropagate MW [1, 1] none none = GoResult.ok (matVecProd MW.A [1, 1]) ∧
    (matVecProd MW.A [(1 : ℚ), 1]).length = (MW.Dims).1 :=
  basePropagate_autonomous MW [1, 1] (by decide) (by decide) (by decide)

/-- Claim C7, counterexample: with a non-square A and a C whose column
count differs from the side of A, the constructor still returns the model
and a nil error, performing no dimension validation at all. -/
theorem construction_accepts_invalid :
    NewBaseModel badA none badC none = (⟨badA, none, badC, none⟩, none) ∧
    badA.rows ≠ badA.cols ∧ badC.cols ≠ badA.cols :=
  ⟨rfl, by decide, by decide⟩

/-- Claim C7, amended: both constructors store the given matrices verbatim
and always return a nil error, whatever dimensions the inputs have;
dimension checking happens only later, inside Propagate and Observe. -/
theorem construction_no_validation :
    (∀ (A : Mat) (B : Option Mat) (C : Mat) (D : Option Mat),
      NewBaseModel A B C D = (⟨A, B, C, D⟩, none)) ∧
    (∀ A B C D : Mat, NewFall A B C D = (⟨A, B, C, D⟩, none)) :=
  ⟨fun _ _ _ _ => rfl, fun _ _ _ _ => rfl⟩

/-- Claim C8: on models satisfying the dimensional invariant (A square,
and for Fall the row count of D equal to that of C), Dims returns the row
count of A as the state dimension and the row count of C as the output
dimension. -/
theorem dims_spec :
    (∀ b : BaseModel, b.A.rows = b.A.cols → b.Dims = (b.A.rows, b.C.rows)) ∧
    (∀ b : Fall, b.A.rows = b.A.cols → b.D.rows = b.C.rows →
      b.Dims = (b.A.rows, b.C.rows)) := by
  constructor
  · intro b h
    simp [BaseModel.Dims, h]
  · intro b h1 h2
    simp [Fall.Dims, h1, h2]

theorem dims_spec_witness :
    MW.Dims = (MW.A.rows, MW.C.rows) ∧ FW.Dims = (FW.A.rows, FW.C.rows) :=
  ⟨dims_spec.1 MW (by decide), dims_spec.2 FW (by decide) (by decide)⟩

/-- Claim C10: for the Fall variant the control vector is effectively
mandatory: both Propagate and Observe read the length of u before any
other use of their arguments, so an absent u is a nil dereference panic
rather than a returned error. -/
theorem fall_requires_control (b : Fall) (x : List ℚ) (q r : Option (List ℚ)) :
    fallPropagate b x none q = GoResult.panic ∧
    fallObserve b x none r = GoResult.panic :=
  ⟨rfl, rfl⟩

/-- Claim C4, counterexample: with the non-empty weight vector of one
entry and the sample count -1, the draw neither returns a result nor an
error: the allocation of the index slice with a negative length panics. -/
theorem roulette_negative_count_cex :
    RouletteDrawN [1] (-1) (fun _ => 0) = GoResult.panic := by
  unfold RouletteDrawN
  rw [if_neg (by decide), if_pos (by decide)]

/-- Claim C4, amended: RouletteDrawN fails with the invalid-weights error
exactly when the weight vector is empty or nil; for a non-empty weight
vector and a non-negative count it returns a list of exactly that many
indices (a negative count panics at the slice allocation). -/
theorem roulette_err_iff (p : List ℚ) (n : Int) (rand : Nat → ℚ) :
    ((∃ s, RouletteDrawN p n rand = GoResult.err s) ↔ p = []) ∧
    (p ≠ [] → 0 ≤ n → ∃ l, RouletteDrawN p n rand = GoResult.ok l ∧
      l.length = n.toNat) := by
  unfold RouletteDrawN
  by_cases hp : p = []
  · rw [if_pos hp]
    exact ⟨⟨fun _ => hp, fun _ => ⟨"Invalid probability weights", rfl⟩⟩,
      fun hne _ => absurd hp hne⟩
  · rw [if_neg hp]
    by_cases hn : n < 0
    · rw [if_pos hn]
      constructor
      · constructor
        · intro ⟨s, hs⟩
          exact absurd hs (by simp)
        · intro hemp
          exact absurd hemp hp
      · intro _ h0
        omega
    · rw [if_neg hn]
      constructor
      · constructor
        · intro ⟨s, hs⟩
          exact absurd hs (by simp)
        · intro hemp
          exact absurd hemp hp
      · intro _ _
        exact ⟨_, rfl, by simp⟩

theorem roulette_err_iff_witness :
    ((∃ s, RouletteDrawN [1] 2 (fun _ => 0) = GoResult.err s) ↔ ([(1 : ℚ)] = [])) ∧
    (∃ l, RouletteDrawN [1] 2 (fun _ => 0) = GoResult.ok l ∧
      l.length = (2 : Int).toNat) :=
  ⟨(roulette_err_iff [1] 2 (fun _ => 0)).1,
   (roulette_err_iff [1] 2 (fun _ => 0)).2 (by decide) (by decide)⟩

/-- Claim C5: with the weight vector [1, 0, 0] the cumulative sums are
[1, 1, 1], every scaled uniform draw in [0, 1) lies strictly below the
first entry, and the binary search returns index 0 for each of the k
draws, whatever the uniform source produces. -/
theorem roulette_unit_weight (k : Int) (rand : Nat → ℚ) (hk : 1 ≤ k)
    (hr : ∀ i, 0 ≤ rand i ∧ rand i < 1) :
    RouletteDrawN [1, 0, 0] k rand = GoResult.ok (List.replicate k.toNat 0) := by
  have hc : cumSum [(1 : ℚ), 0, 0] = [1, 1, 1] := by
    simp [cumSum]
  unfold RouletteDrawN
  rw [if_neg (by decide), if_neg (by omega)]
  congr 1
  rw [hc]
  refine List.eq_replicate_iff.2 ⟨by simp, ?_⟩
  intro b hb
  rw [List.mem_map] at hb
  obtain ⟨i, _, rfl⟩ := hb
  unfold sortSearch
  apply searchLoop_eq_left
  intro j hj
  rw [decide_eq_true_eq]
  have hget : ([(1 : ℚ), 1, 1]).getD (([(1 : ℚ), 1, 1]).length - 1) 0 = 1 := rfl
  rw [hget, mul_one]
  have hj3 : j < 3 := hj
  interval_cases j
  · exact (hr i).2
  · exact (hr i).2
  · exact (hr i).2

theorem roulette_unit_weight_witness :
    RouletteDrawN [1, 0, 0] 2 (fun _ => 1 / 2) =
      GoResult.ok (List.replicate (2 : Int).toNat 0) :=
  roulette_unit_weight 2 (fun _ => 1 / 2) (by decide)
    (fun i => ⟨by norm_num, by norm_num⟩)

/-- Claim C6, the failing run: with both weights zero the cumulative sums
are all zero, every scaled draw is zero, no entry is strictly above it,
and sort.Search returns the length of the weight vector, index 2, which
is not a valid index into the two weights; the call neither rejects the
input nor stays in range. -/
theorem roulette_zero_weights_out_of_range :
    RouletteDrawN [0, 0] 1 (fun _ => 1 / 2) = GoResult.ok [2] ∧
    ¬ (2 < ([(0 : ℚ), 0]).length) := by
  constructor
  · have hcd : cumSum [(0 : ℚ), 0] = [0, 0] := by
      simp [cumSum]
    have hg : ∀ j : Nat, ([(0 : ℚ), 0]).getD j 0 = 0 := by
      intro j
      match j with
      | 0 => rfl
      | 1 => rfl
      | Nat.succ (Nat.succ _) => rfl
    unfold RouletteDrawN
    rw [if_neg (by decide), if_neg (by decide)]
    have hfun :
        (fun j => decide ((1 : ℚ) / 2 *
            (cumSum [(0 : ℚ), 0]).getD ((cumSum [(0 : ℚ), 0]).length - 1) 0 <
          (cumSum [(0 : ℚ), 0]).getD j 0)) = fun _ : Nat => false := by
      funext j
      rw [hcd]
      rw [hg, hg]
      simp
    have hsort : sortSearch (cumSum [(0 : ℚ), 0]).length (fun _ : Nat => false) = 2 := by
      rw [hcd]
      rfl
    congr 1
    rw [show List.range (1 : Int).toNat = [0] from rfl]
    simp only [List.map_cons, List.map_nil]
    rw [hfun, hsort]
  · decide

/-- Claim C9: the State and Cov accessors each allocate a fresh cell,
copy the internal contents into it, and return the fresh reference: the
returned references differ from the internal ones and from each other,
the copy holds the internal contents, and writing through a returned
reference changes neither an earlier returned copy nor the internal
cell. -/
theorem initCond_copy_independence (h : GoHeap) (ic : InitCond) (v : List ℚ)
    (m : List (List ℚ)) (hval : ic.Valid h) :
    StateCopyIndependent h ic v ∧ CovCopyIndependent h ic m := by
  obtain ⟨hs, hc⟩ := hval
  constructor
  · unfold StateCopyIndependent
    simp only [InitCond.State, writeVec]
    refine ⟨by omega, by omega, by omega, ?_, ?_, ?_⟩
    · split_ifs <;> first | rfl | (exfalso; omega)
    · split_ifs <;> first | rfl | (exfalso; omega)
    · split_ifs <;> first | rfl | (exfalso; omega)
  · unfold CovCopyIndependent
    simp only [InitCond.Cov, writeMat]
    refine ⟨by omega, by omega, by omega, ?_, ?_, ?_⟩
    · split_ifs <;> first | rfl | (exfalso; omega)
    · split_ifs <;> first | rfl | (exfalso; omega)
    · split_ifs <;> first | rfl | (exfalso; omega)

theorem initCond_copy_independence_witness :
    StateCopyIndependent H0 IC0 [5] ∧ CovCopyIndependent H0 IC0 [[7]] :=
  initCond_copy_independence H0 IC0 [5] [[7]] (by decide)
